import Mathlib

/-!
Shallow embedding of `utils/cleaner.py` (`clean_dataframe` and its helpers)
from the excel_cleaner repository, together with proofs settling the frozen
claims about its specification.

Modelling conventions:
* A pandas `DataFrame` becomes `Frame`: an explicit row count plus a list of
  named, dtype-tagged columns (cell lists).  Row identity is positional.
* Scalar cells are `Cell`: the distinguished missing marker `na`, a text
  value, or a numeric value (floats are modelled as rationals).
* The report dict becomes an insertion-ordered association list with
  dict-style assignment (`rset`: overwrite in place or append).
* Python `try/except Exception: pass` around a per-column operation becomes
  `guardCol`: the fallible body is `Option`-valued and a failing column is
  left in its prior state.
* The date-like gate in the source uses the pattern `[/\\-.]|[A-Za-z]{3,}`
  whose character class is rejected by Python's regex engine
  (`re.error: bad character range \-.`).  Both call sites sit inside
  `try/except Exception: pass`, so the datetime attempt of the type
  inferencer and of the Arrow-compatibility finalizer always aborts before
  parsing anything.  The embedding models those two branches as the no-ops
  they are at runtime; datetime-typed data therefore never arises and needs
  no representation.
-/

namespace ExcelCleaner

-- Restore kernel computability of rational arithmetic for the
-- concrete-input theorems (these operations are sealed upstream).
attribute [local semireducible] Rat.mul Rat.add Rat.inv Rat.sub Rat.ofScientific

/-- A scalar cell of the table: the missing marker, a text value, or a
numeric value (floats modelled as rationals). -/
inductive Cell where
  | na : Cell
  | str (s : String) : Cell
  | num (q : ℚ) : Cell
deriving DecidableEq

/-- Pandas column dtypes that can actually occur in the pipeline: `object`
(heterogeneous cells), a numeric dtype, and the pandas `string` extension
dtype produced by the Arrow-compatibility finalizer. -/
inductive Dtype where
  | object : Dtype
  | numeric : Dtype
  | stringT : Dtype
deriving DecidableEq

/-- A named column: name, dtype tag, and its cells in row order. -/
structure Col where
  name : String
  dtype : Dtype
  cells : List Cell
deriving DecidableEq

/-- A data frame: an explicit row count (pandas keeps the index length even
when every column is dropped) plus the list of columns. -/
structure Frame where
  nrows : Nat
  cols : List Col
deriving DecidableEq

/-- Number of columns. -/
def Frame.ncols (f : Frame) : Nat := f.cols.length

/-- `df.shape`: (row count, column count). -/
def Frame.shape (f : Frame) : Nat × Nat := (f.nrows, f.cols.length)

/-- Well-formedness: every column has exactly `nrows` cells. -/
def Frame.WF (f : Frame) : Prop := ∀ c ∈ f.cols, c.cells.length = f.nrows

/-- `pd.isna` on a cell: only the missing marker is missing. -/
def Cell.isna : Cell → Bool
  | .na => true
  | _ => false

/-- Values stored in the report dict. -/
inductive RVal where
  | shape (p : Nat × Nat) : RVal
  | nat (n : Nat) : RVal
  | int (i : Int) : RVal
  | strMap (m : List (String × String)) : RVal
  | natMap (m : List (String × Nat)) : RVal
  | dtypeMap (m : List (String × String × String)) : RVal
  | outlierMap (m : List (String × Nat × ℚ)) : RVal
deriving DecidableEq

/-- The report: an insertion-ordered association list, like a Python dict. -/
abbrev Report := List (String × RVal)

/-- Dict-style assignment `report[k] = v`: overwrite the entry in place if
the key is present, otherwise append. -/
def rset : Report → String → RVal → Report
  | [], k, v => [(k, v)]
  | p :: r, k, v => if p.1 == k then (k, v) :: r else p :: rset r k v

/-- Dict lookup `report[k]`. -/
def rget (r : Report) (k : String) : Option RVal :=
  (r.find? (fun p => p.1 == k)).map Prod.snd

/-- The keys of the report, in insertion order. -/
def rkeys (r : Report) : List String := r.map Prod.fst

/-! ### String helpers

Character-list implementations of trim / lowercase / affix tests (the
built-in `String` versions walk UTF-8 byte positions and do not reduce in
the kernel, which the concrete-input theorems below rely on). -/

/-- Strip leading and trailing whitespace (`str.strip()`). -/
def trimChars (cs : List Char) : List Char :=
  ((cs.dropWhile Char.isWhitespace).reverse.dropWhile Char.isWhitespace).reverse

/-- `str.strip()` on a string. -/
def strStrip (s : String) : String := String.mk (trimChars s.toList)

/-- `str.lower()`. -/
def strLower (s : String) : String := String.mk (s.toList.map Char.toLower)

/-- Whether `pre` is a prefix of `s`. -/
def strStarts (s pre : String) : Bool := pre.toList.isPrefixOf s.toList

/-- Whether `suf` is a suffix of `s`. -/
def strEnds (s suf : String) : Bool := suf.toList.reverse.isPrefixOf s.toList.reverse

/-! ### Column-name normalization (`_normalize_column_name`) -/

/-- Collapse each maximal whitespace run to a single underscore
(`re.sub(r"\s+", "_", name)`); the flag records whether the previous
character was part of a whitespace run. -/
def collapseWsAux : Bool → List Char → List Char
  | _, [] => []
  | prevWs, c :: rest =>
    if c.isWhitespace then
      if prevWs then collapseWsAux true rest
      else '_' :: collapseWsAux true rest
    else c :: collapseWsAux false rest

/-- `_normalize_column_name`: trim surrounding whitespace, collapse internal
whitespace runs to one underscore, strip characters outside
`[0-9a-zA-Z_]`, lowercase. -/
def normalizeColumnName (name : String) : String :=
  let cs := (collapseWsAux false (trimChars name.toList)).filter
    (fun c => c.isAlphanum || c == '_')
  String.mk (cs.map Char.toLower)

/-! ### Generic helpers shared by the stages -/

/-- The per-column `try/except Exception: pass` pattern: run the fallible
body; a failing column is left in its prior state. -/
def guardCol (body : Col → Option Col) (c : Col) : Col :=
  (body c).getD c

/-- The cells of row `i` across all columns (missing beyond a column's
length, which cannot happen on well-formed frames). -/
def rowCells (f : Frame) (i : Nat) : List Cell :=
  f.cols.map (fun c => c.cells.getD i .na)

/-- Keep exactly the rows whose index satisfies `p`, preserving order. -/
def filterRows (f : Frame) (p : Nat → Bool) : Frame :=
  let keep := (List.range f.nrows).filter p
  { nrows := keep.length
    cols := f.cols.map (fun c => { c with cells := keep.map (fun i => c.cells.getD i .na) }) }

/-- A row is blank when every cell in it is missing. -/
def Frame.rowBlank (f : Frame) (i : Nat) : Bool :=
  (rowCells f i).all Cell.isna

/-- A row has a missing cell (`dropna(how='any')` drops it). -/
def Frame.rowHasNa (f : Frame) (i : Nat) : Bool :=
  (rowCells f i).any Cell.isna

/-- A column is blank when every cell is missing. -/
def Col.blank (c : Col) : Bool := c.cells.all Cell.isna

/-- Number of missing cells of a column. -/
def Col.naCount (c : Col) : Nat := c.cells.countP (fun x => x.isna)

/-- Replace every missing cell by `v` (`Series.fillna`). -/
def fillCells (cells : List Cell) (v : Cell) : List Cell :=
  cells.map (fun x => if x.isna then v else x)

/-- The numeric values of a column's non-missing cells (`df[c].dropna()` on
a numeric column). -/
def numericTail (cells : List Cell) : List ℚ :=
  cells.filterMap (fun x => match x with | .num q => some q | _ => none)

/-- The non-missing cells of a column. -/
def nonNaCells (cells : List Cell) : List Cell :=
  cells.filter (fun x => !x.isna)

/-! ### Whitespace trimming -/

/-- Python `str(x)` for the cells of our universe (numbers rendered via
`toString`; the exact float formatting never decides a claim). -/
def cellToStr : Cell → String
  | .na => "nan"
  | .str s => s
  | .num q => toString q

/-- One cell of `col.astype(str).where(col.notna(), None).str.strip()`:
missing passes through, anything else is stringified and stripped. -/
def trimCell : Cell → Cell
  | .na => .na
  | x => .str (strStrip (cellToStr x))

/-- The body of the trim loop for one object column (inside the
`try/except`). -/
def trimColBody (c : Col) : Option Col :=
  some { c with cells := c.cells.map trimCell }

/-! ### Numeric parsing (`pd.to_numeric(..., errors='coerce')`) -/

/-- Value of a digit string. -/
def digitsVal (cs : List Char) : ℕ :=
  cs.foldl (fun a c => a * 10 + (c.toNat - '0'.toNat)) 0

/-- Model of float parsing for a string cell: surrounding whitespace
allowed, optional sign, digits with at most one decimal point, at least
one digit (exponent notation is not modelled; no claim depends on it). -/
def parseNumStr (s : String) : Option ℚ :=
  let cs := trimChars s.toList
  let signed : ℚ × List Char :=
    match cs with
    | '-' :: rest => (-1, rest)
    | '+' :: rest => (1, rest)
    | _ => (1, cs)
  let intPart := signed.2.takeWhile Char.isDigit
  let rest := signed.2.dropWhile Char.isDigit
  match rest with
  | [] => if intPart.isEmpty then none else some (signed.1 * digitsVal intPart)
  | '.' :: fracCs =>
    if fracCs.all Char.isDigit && !(intPart.isEmpty && fracCs.isEmpty) then
      some (signed.1 * ((digitsVal intPart : ℚ) + (digitsVal fracCs : ℚ) / (10 ^ fracCs.length)))
    else none
  | _ => none

/-- `pd.to_numeric` elementwise with `errors='coerce'`: numbers pass
through, strings are parsed, missing (and anything unparsable) coerces to
missing. -/
def toNumericCell : Cell → Option ℚ
  | .na => none
  | .num q => some q
  | .str s => parseNumStr s

/-! ### Null handling (fill strategies) -/

/-- `col.mean()` as a fill value: mean of the non-missing numeric values;
`na` when there are none (pandas yields NaN and the fill is a no-op). -/
def meanFill (c : Col) : Cell :=
  let xs := numericTail c.cells
  if xs.isEmpty then .na else .num (xs.sum / xs.length)

/-- Insert into a sorted list of rationals. -/
def insertSorted (x : ℚ) : List ℚ → List ℚ
  | [] => [x]
  | y :: ys => if x ≤ y then x :: y :: ys else y :: insertSorted x ys

/-- Sort a list of rationals ascending (insertion sort). -/
def sortQ (xs : List ℚ) : List ℚ := xs.foldr insertSorted []

/-- `col.median()` as a fill value: middle value, or mean of the two middle
values, of the sorted non-missing numbers; `na` when there are none. -/
def medianFill (c : Col) : Cell :=
  let xs := sortQ (numericTail c.cells)
  let n := xs.length
  if n == 0 then .na
  else if n % 2 == 1 then .num (xs.getD (n / 2) 0)
  else .num ((xs.getD (n / 2 - 1) 0 + xs.getD (n / 2) 0) / 2)

/-- First element of `col.mode(dropna=True)`: a non-missing value of
maximal multiplicity (ties resolved by first occurrence in this model;
pandas returns them sorted, and no claim depends on the tie order);
`none` when every cell is missing. -/
def modeVal (cells : List Cell) : Option Cell :=
  let xs := nonNaCells cells
  xs.foldl (fun best x =>
    match best with
    | none => some x
    | some b => if xs.count x > xs.count b then some x else best) none

/-- The fallback fill `col.fillna('') if col.dtype == object else
col.fillna(0)` (used for an unrecognized strategy and for an empty mode):
empty text on object columns, zero on numeric columns; on a pandas
string-dtype column `fillna(0)` raises (a non-string value cannot be set
in a string array), so the branch fails and the surrounding `except`
skips the column. -/
def fallbackFill (c : Col) : Option (List Cell) :=
  if c.dtype == .object then some (fillCells c.cells (.str ""))
  else if c.dtype == .numeric then some (fillCells c.cells (.num 0))
  else none

/-- The branch body of the fill loop for one column (inside the
`try/except`): returns the new cells, or `none` when the branch raises
(`fillna(None)` raises `ValueError` when no fill constant was supplied;
the fallback zero-fill raises on a string-dtype column). -/
def fillBranch (strategy : String) (const : Option Cell) (c : Col) : Option (List Cell) :=
  if strategy == "mean" && c.dtype == .numeric then
    some (fillCells c.cells (meanFill c))
  else if strategy == "median" && c.dtype == .numeric then
    some (fillCells c.cells (medianFill c))
  else if strategy == "mode" then
    match modeVal c.cells with
    | some v => some (fillCells c.cells v)
    | none => fallbackFill c
  else if strategy == "constant" then
    match const with
    | some v => some (fillCells c.cells v)
    | none => none
  else
    fallbackFill c

/-- One column of the fill loop: columns without missing cells are
skipped; a successful branch installs the new cells and records
`(name, previous missing count)`; a failing branch leaves the column and
records nothing. -/
def fillColStep (strategy : String) (const : Option Cell) (c : Col) :
    Col × Option (String × Nat) :=
  if c.naCount == 0 then (c, none)
  else match fillBranch strategy const c with
    | some cs => ({ c with cells := cs }, some (c.name, c.naCount))
    | none => (c, none)

/-- The fill loop over the whole frame, collecting `filled_counts` in
column order. -/
def fillStage (strategy : String) (const : Option Cell) (f : Frame) :
    Frame × List (String × Nat) :=
  let results := f.cols.map (fillColStep strategy const)
  ({ f with cols := results.map Prod.fst }, results.filterMap Prod.snd)

/-- The null-handling stage: sets `nulls_dropped`/`nulls_filled` to their
zero values, then dispatches on `null_handling`. -/
def nullStage (nullHandling strategy : String) (const : Option Cell)
    (f : Frame) (r : Report) : Frame × Report :=
  let r := rset r "nulls_dropped" (.nat 0)
  let r := rset r "nulls_filled" (.natMap [])
  if nullHandling == "drop_rows" then
    let f' := filterRows f (fun i => !(f.rowHasNa i))
    (f', rset r "nulls_dropped" (.nat (f.nrows - f'.nrows)))
  else if nullHandling == "fill" then
    let res := fillStage strategy const f
    (res.1, rset r "nulls_filled" (.natMap res.2))
  else (f, r)

/-! ### Blank pruning and duplicate removal -/

/-- `df.dropna(how='all')`: drop the rows whose cells are all missing. -/
def dropBlankRowsF (f : Frame) : Frame :=
  filterRows f (fun i => !(f.rowBlank i))

/-- `df.dropna(axis=1, how='all')`: drop the columns whose cells are all
missing. -/
def dropBlankColsF (f : Frame) : Frame :=
  { f with cols := f.cols.filter (fun c => !c.blank) }

/-- Row `i` is kept by `drop_duplicates` when no earlier row has exactly
the same cells (missing compares equal to missing, as in pandas
`duplicated`). -/
def isFirstOccurrence (f : Frame) (i : Nat) : Bool :=
  !((List.range i).any (fun j => rowCells f j == rowCells f i))

/-- `df.drop_duplicates()`: keep the first occurrence of each row value,
dropping later exact duplicates. -/
def dedupF (f : Frame) : Frame :=
  filterRows f (isFirstOccurrence f)

/-! ### Type inference -/

/-- `str(series.dtype)` for our dtypes. -/
def dtypeName : Dtype → String
  | .object => "object"
  | .numeric => "float64"
  | .stringT => "string"

/-- The inference loop body for one column: skip if all cells are missing;
commit numeric when the parsed fraction over the row count is ≥ 0.9 and
record the dtype change.  The subsequent datetime attempt always aborts
(its date-like pattern does not compile; the exception is swallowed), so a
column failing the numeric attempt is left unchanged. -/
def inferCol (c : Col) : Col × Option (String × String × String) :=
  if (nonNaCells c.cells).isEmpty then (c, none)
  else
    let conv := c.cells.map toNumericCell
    let nonNull := conv.countP Option.isSome
    if (nonNull : ℚ) / (max 1 c.cells.length : ℚ) ≥ 9/10 then
      ({ c with dtype := .numeric
                cells := conv.map (fun o => match o with | some q => .num q | none => .na) },
       some (c.name, dtypeName c.dtype, "numeric"))
    else (c, none)

/-- The type-inference stage: per-column numeric commits plus the
`dtype_changes` entries, in column order. -/
def inferStage (infer : Bool) (f : Frame) : Frame × List (String × String × String) :=
  if infer then
    let results := f.cols.map inferCol
    ({ f with cols := results.map Prod.fst }, results.filterMap Prod.snd)
  else (f, [])

/-! ### Arrow-compatibility finalization (`_make_arrow_compatible`) -/

/-- The finalizer for one column: object columns are converted to numeric
when ≥ 0.95 of the values parse; the datetime retry always aborts (same
broken date-like pattern), so otherwise the column becomes pandas `string`
dtype with every non-missing cell stringified and missing preserved. -/
def arrowCompatCol (c : Col) : Col :=
  if c.dtype == .object then
    let conv := c.cells.map toNumericCell
    let nonNull := conv.countP Option.isSome
    if (nonNull : ℚ) / (max 1 c.cells.length : ℚ) ≥ 95/100 then
      { c with dtype := .numeric
               cells := conv.map (fun o => match o with | some q => .num q | none => .na) }
    else
      { c with dtype := .stringT
               cells := c.cells.map (fun x => if x.isna then .na else .str (cellToStr x)) }
  else c

/-! ### Outlier detection -/

/-- The identifier-column test `re.search(r'(?i)(?:^id$|_id$|^id_)', name)`:
the name is `id`, ends in `_id`, or starts with `id_`, case-insensitively. -/
def idLike (name : String) : Bool :=
  let n := strLower name
  n == "id" || strEnds n "_id" || strStarts n "id_"

/-- The columns eligible for outlier analysis: numeric dtype, not
identifier-like. -/
def eligibleCols (cols : List Col) : List Col :=
  cols.filter (fun c => c.dtype == .numeric && !(idLike c.name))

/-- `Series.quantile(q)` with linear interpolation over the sorted values. -/
def quantileLin (xs : List ℚ) (q : ℚ) : ℚ :=
  let s := sortQ xs
  let n := s.length
  if n == 0 then 0
  else
    let pos := q * ((n : ℚ) - 1)
    let lo := pos.floor.toNat
    let frac := pos - (pos.floor : ℚ)
    s.getD lo 0 + frac * (s.getD (lo + 1) 0 - s.getD lo 0)

/-- IQR flagging of one cell: outside `[Q1 − t·IQR, Q3 + t·IQR]` computed
over the non-missing values `vals`; missing never flags. -/
def iqrMask (t : ℚ) (vals : List ℚ) (x : Cell) : Bool :=
  let q1 := quantileLin vals (1/4)
  let q3 := quantileLin vals (3/4)
  let iqr := q3 - q1
  let lower := q1 - t * iqr
  let upper := q3 + t * iqr
  match x with
  | .num v => decide (v < lower) || decide (v > upper)
  | _ => false

/-- Population variance (`ddof = 0`) of a list of values. -/
def popVar (vals : List ℚ) : ℚ :=
  let mu := vals.sum / vals.length
  (vals.map (fun v => (v - mu) ^ 2)).sum / vals.length

/-- Z-score flagging of one cell over the non-missing values `vals`: no
flag when the population variance is zero (σ = 0); otherwise the source
flags `|v − μ| / σ > t` with `σ = √(popVar vals)`, which for σ > 0 is
equivalent to `t < 0 ∨ (v − μ)² > t² · popVar vals` (the square root is
eliminated; the equivalence is proved against the √-form below).  Missing
never flags. -/
def zscoreMask (t : ℚ) (vals : List ℚ) (x : Cell) : Bool :=
  let mu := vals.sum / vals.length
  let varP := popVar vals
  if varP == 0 then false
  else match x with
    | .num v => decide (t < 0) || decide ((v - mu) ^ 2 > t ^ 2 * varP)
    | _ => false

/-- The per-column flagging function chosen by `outlier_method` (any value
other than `iqr` selects the z-score branch, as in the source's
`if/else`). -/
def colMaskFn (method : String) (t : ℚ) (c : Col) : Cell → Bool :=
  if method == "iqr" then iqrMask t (numericTail c.cells)
  else zscoreMask t (numericTail c.cells)

/-- One iteration of the outlier loop: an all-missing column reports
`(0, 0)` and contributes nothing; otherwise the column's count/percent is
appended and, under the `drop` action with a positive count, its flags are
OR-ed into the removal mask. -/
def outlierStep (method : String) (t : ℚ) (action : String) (nrows : Nat)
    (acc : List (String × Nat × ℚ) × (Nat → Bool)) (c : Col) :
    List (String × Nat × ℚ) × (Nat → Bool) :=
  if (numericTail c.cells).isEmpty then (acc.1 ++ [(c.name, 0, 0)], acc.2)
  else
    let mf := colMaskFn method t c
    let count := c.cells.countP mf
    let percent := (count : ℚ) / (max 1 nrows : ℚ)
    let rep := acc.1 ++ [(c.name, count, percent)]
    if action == "drop" && count > 0 then
      (rep, fun i => acc.2 i || mf (c.cells.getD i .na))
    else (rep, acc.2)

/-- The removal mask accumulated over the eligible columns. -/
def outlierFold (method : String) (t : ℚ) (action : String) (nrows : Nat)
    (cols : List Col) : List (String × Nat × ℚ) × (Nat → Bool) :=
  (eligibleCols cols).foldl (outlierStep method t action nrows) ([], fun _ => false)

/-- The outlier stage: writes the zero-valued `outliers` and
`outliers_removed` keys, then, when enabled, runs the per-column loop,
applies the drop action, and defensively purges identifier-like keys from
the outliers report. -/
def outlierStage (detect : Bool) (method : String) (t : ℚ) (action : String)
    (f : Frame) (r : Report) : Frame × Report :=
  let r := rset r "outliers" (.outlierMap [])
  let r := rset r "outliers_removed" (.nat 0)
  if detect then
    let res := outlierFold method t action f.nrows f.cols
    let dropRes :=
      if action == "drop" then
        let f' := filterRows f (fun i => !(res.2 i))
        (f', f.nrows - f'.nrows)
      else (f, 0)
    let entries := res.1.filter (fun e => !(idLike e.1))
    let r := rset r "outliers" (.outlierMap entries)
    let r := rset r "outliers_removed" (.nat dropRes.2)
    (dropRes.1, r)
  else (f, r)

/-! ### The pipeline (`clean_dataframe`) -/

/-- The column-name normalization stage: rename every column, recording the
changed old/new pairs under `col_renames` (an empty map when disabled). -/
def normalizeStage (b : Bool) (f : Frame) (r : Report) : Frame × Report :=
  if b then
    let renames := (f.cols.map (fun c => (c.name, normalizeColumnName c.name))).filter
      (fun p => !(p.1 == p.2))
    ({ f with cols := f.cols.map (fun c => { c with name := normalizeColumnName c.name }) },
     rset r "col_renames" (.strMap renames))
  else (f, rset r "col_renames" (.strMap []))

/-- The whitespace-trimming stage: object-dtype columns only, each guarded
by its own `try/except`. -/
def trimStage (b : Bool) (f : Frame) : Frame :=
  if b then
    { f with cols := f.cols.map (fun c => if c.dtype == .object then guardCol trimColBody c else c) }
  else f

/-- The blank-row stage: report `blank_rows_dropped` (0 when disabled). -/
def blankRowsStage (b : Bool) (f : Frame) (r : Report) : Frame × Report :=
  if b then
    let f' := dropBlankRowsF f
    (f', rset r "blank_rows_dropped" (.nat (f.nrows - f'.nrows)))
  else (f, rset r "blank_rows_dropped" (.nat 0))

/-- The blank-column stage: report `blank_cols_dropped` (0 when disabled). -/
def blankColsStage (b : Bool) (f : Frame) (r : Report) : Frame × Report :=
  if b then
    let f' := dropBlankColsF f
    (f', rset r "blank_cols_dropped" (.nat (f.ncols - f'.ncols)))
  else (f, rset r "blank_cols_dropped" (.nat 0))

/-- The duplicate-removal stage: report `duplicates_dropped` (0 when
disabled). -/
def dedupStage (b : Bool) (f : Frame) (r : Report) : Frame × Report :=
  if b then
    let f' := dedupF f
    (f', rset r "duplicates_dropped" (.nat (f.nrows - f'.nrows)))
  else (f, rset r "duplicates_dropped" (.nat 0))

/-- The type-inference stage plus its `dtype_changes` report entry (written
even when inference is disabled). -/
def dtypeStage (b : Bool) (f : Frame) (r : Report) : Frame × Report :=
  let s := inferStage b f
  (s.1, rset r "dtype_changes" (.dtypeMap s.2))

/-- The Arrow-compatibility pass over every column. -/
def arrowStage (f : Frame) : Frame :=
  { f with cols := f.cols.map arrowCompatCol }

/-- The configuration dict.  Keys read with `config.get(k, default)` in the
source are `Option`-valued here, resolved with the same default at the
same read site; keys read with plain truthiness are booleans. -/
structure Config where
  normalize_columns : Bool := false
  trim_whitespace : Bool := false
  null_handling : Option String := none
  fill_strategy : Option String := none
  fill_constant : Option Cell := none
  drop_blank_rows : Bool := false
  drop_blank_cols : Bool := false
  drop_duplicates : Bool := false
  infer_types : Bool := false
  date_detect_thresh : Option ℚ := none
  detect_outliers : Bool := false
  outlier_method : Option String := none
  outlier_threshold : Option ℚ := none
  outlier_action : Option String := none

/-- `clean_dataframe(df, config) -> (cleaned_df, report)`: the fixed-order
stage chain over the shared table and the accumulating report. -/
def cleanFrame (f : Frame) (cfg : Config) : Frame × Report :=
  let originalShape := f.shape
  let r0 := rset ([] : Report) "original_shape" (.shape originalShape)
  let s1 := normalizeStage cfg.normalize_columns f r0
  let f1 := trimStage cfg.trim_whitespace s1.1
  let s2 := nullStage (cfg.null_handling.getD "none") (cfg.fill_strategy.getD "mode")
    cfg.fill_constant f1 s1.2
  let s3 := blankRowsStage cfg.drop_blank_rows s2.1 s2.2
  let s4 := blankColsStage cfg.drop_blank_cols s3.1 s3.2
  let s5 := dedupStage cfg.drop_duplicates s4.1 s4.2
  let s6 := dtypeStage cfg.infer_types s5.1 s5.2
  let f6 := arrowStage s6.1
  let method := cfg.outlier_method.getD "iqr"
  let s7 := outlierStage cfg.detect_outliers method
    (cfg.outlier_threshold.getD (if method == "iqr" then 3/2 else 3))
    (cfg.outlier_action.getD "report") f6 s6.2
  let cleanedShape := s7.1.shape
  let r := rset s7.2 "cleaned_shape" (.shape cleanedShape)
  let r := rset r "rows_removed" (.int ((originalShape.1 : Int) - (cleanedShape.1 : Int)))
  let r := rset r "cols_removed" (.int ((originalShape.2 : Int) - (cleanedShape.2 : Int)))
  (s7.1, r)

/-! ## Lemmas about the report dict -/

theorem rget_rset_self (r : Report) (k : String) (v : RVal) :
    rget (rset r k v) k = some v := by
  induction r with
  | nil => simp [rset, rget]
  | cons p r ih =>
    by_cases h : p.1 = k
    · simp [rset, rget, h]
    · simp only [rset, beq_iff_eq, h, if_false]
      simpa [rget, List.find?_cons_of_neg, h] using ih

theorem rget_rset_ne (r : Report) (k k' : String) (v : RVal) (h : k' ≠ k) :
    rget (rset r k v) k' = rget r k' := by
  induction r with
  | nil => simp [rset, rget, Ne.symm h]
  | cons p r ih =>
    by_cases hp : p.1 = k
    · have h1 : ¬((k, v).1 == k') = true := by simp [Ne.symm h]
      have h2 : ¬(p.1 == k') = true := by simp [hp, Ne.symm h]
      simp [rset, rget, hp, List.find?_cons_of_neg, h1, h2]
    · simp only [rset, beq_iff_eq, hp, if_false]
      by_cases hp' : p.1 = k'
      · simp [rget, hp']
      · have h2 : ¬(p.1 == k') = true := by simp [hp']
        simpa [rget, List.find?_cons_of_neg, h2] using ih

theorem rkeys_cons (p : String × RVal) (r : Report) :
    rkeys (p :: r) = p.1 :: rkeys r := rfl

theorem mem_rkeys_rset_self (r : Report) (k : String) (v : RVal) :
    k ∈ rkeys (rset r k v) := by
  induction r with
  | nil => simp [rset, rkeys]
  | cons p r ih =>
    by_cases h : p.1 = k
    · simp [rset, rkeys, h]
    · simp only [rset, beq_iff_eq, h, if_false, rkeys_cons]
      exact List.mem_cons_of_mem _ ih

theorem mem_rkeys_rset_of_mem (r : Report) (k k' : String) (v : RVal)
    (h : k' ∈ rkeys r) : k' ∈ rkeys (rset r k v) := by
  induction r with
  | nil => simp [rkeys] at h
  | cons p r ih =>
    rw [rkeys_cons] at h
    by_cases hp : p.1 = k
    · rcases List.mem_cons.mp h with h1 | h1
      · subst h1
        simp [rset, hp, rkeys_cons]
      · simp only [rset, beq_iff_eq, hp, if_true, rkeys_cons]
        simpa [rset, hp, rkeys_cons] using List.mem_cons_of_mem (k, v).1 h1
    · simp only [rset, beq_iff_eq, hp, if_false, rkeys_cons]
      rcases List.mem_cons.mp h with h1 | h1
      · exact h1 ▸ List.mem_cons_self _ _
      · exact List.mem_cons_of_mem _ (ih h1)

theorem rkeys_rset_of_mem (r : Report) (k : String) (v : RVal)
    (h : k ∈ rkeys r) : rkeys (rset r k v) = rkeys r := by
  induction r with
  | nil => simp [rkeys] at h
  | cons p r ih =>
    by_cases hp : p.1 = k
    · simp [rset, rkeys, hp]
    · rw [rkeys_cons] at h
      rcases List.mem_cons.mp h with h1 | h1
      · exact absurd h1.symm hp
      · simp only [rset, beq_iff_eq, hp, if_false, rkeys_cons]
        rw [ih h1]

theorem rkeys_rset_of_not_mem (r : Report) (k : String) (v : RVal)
    (h : k ∉ rkeys r) : rkeys (rset r k v) = rkeys r ++ [k] := by
  induction r with
  | nil => simp [rset, rkeys]
  | cons p r ih =>
    have hp : p.1 ≠ k := by
      intro e
      exact h (by simp [rkeys_cons, e])
    have h' : k ∉ rkeys r := fun hm => h (by simp [rkeys_cons, hm])
    simp only [rset, beq_iff_eq, hp, if_false, rkeys_cons]
    rw [ih h']
    rfl

/-- The value written for one key does not affect the key set. -/
theorem rkeys_rset_congr (r : Report) (k : String) (v v' : RVal) :
    rkeys (rset r k v) = rkeys (rset r k v') := by
  by_cases h : k ∈ rkeys r
  · rw [rkeys_rset_of_mem r k v h, rkeys_rset_of_mem r k v' h]
  · rw [rkeys_rset_of_not_mem r k v h, rkeys_rset_of_not_mem r k v' h]

/-! ### Key sets written by each stage -/

theorem rkeys_normalizeStage (b : Bool) (f : Frame) (r : Report) :
    rkeys (normalizeStage b f r).2 = rkeys (rset r "col_renames" (.strMap [])) := by
  unfold normalizeStage
  split
  · exact rkeys_rset_congr r _ _ _
  · rfl

theorem rkeys_nullStage (nh s : String) (k : Option Cell) (f : Frame) (r : Report) :
    rkeys (nullStage nh s k f r).2 =
      rkeys (rset (rset r "nulls_dropped" (.nat 0)) "nulls_filled" (.natMap [])) := by
  unfold nullStage
  split
  · exact rkeys_rset_of_mem _ _ _
      (mem_rkeys_rset_of_mem _ _ _ _ (mem_rkeys_rset_self _ _ _))
  · split
    · exact rkeys_rset_of_mem _ _ _ (mem_rkeys_rset_self _ _ _)
    · rfl

theorem rkeys_blankRowsStage (b : Bool) (f : Frame) (r : Report) :
    rkeys (blankRowsStage b f r).2 = rkeys (rset r "blank_rows_dropped" (.nat 0)) := by
  unfold blankRowsStage
  split
  · exact rkeys_rset_congr r _ _ _
  · rfl

theorem rkeys_blankColsStage (b : Bool) (f : Frame) (r : Report) :
    rkeys (blankColsStage b f r).2 = rkeys (rset r "blank_cols_dropped" (.nat 0)) := by
  unfold blankColsStage
  split
  · exact rkeys_rset_congr r _ _ _
  · rfl

theorem rkeys_dedupStage (b : Bool) (f : Frame) (r : Report) :
    rkeys (dedupStage b f r).2 = rkeys (rset r "duplicates_dropped" (.nat 0)) := by
  unfold dedupStage
  split
  · exact rkeys_rset_congr r _ _ _
  · rfl

theorem rkeys_dtypeStage (b : Bool) (f : Frame) (r : Report) :
    rkeys (dtypeStage b f r).2 = rkeys (rset r "dtype_changes" (.dtypeMap [])) := by
  unfold dtypeStage
  exact rkeys_rset_congr r _ _ _

theorem rkeys_outlierStage (d : Bool) (m : String) (t : ℚ) (a : String)
    (f : Frame) (r : Report) :
    rkeys (outlierStage d m t a f r).2 =
      rkeys (rset (rset r "outliers" (.outlierMap [])) "outliers_removed" (.nat 0)) := by
  unfold outlierStage
  split
  · have h1 : rkeys (rset (rset (rset r "outliers" (.outlierMap [])) "outliers_removed"
        (.nat 0)) "outliers" (.outlierMap (((outlierFold m t a f.nrows f.cols).1.filter
          (fun e => !(idLike e.1)))))) =
        rkeys (rset (rset r "outliers" (.outlierMap [])) "outliers_removed" (.nat 0)) :=
      rkeys_rset_of_mem _ _ _
        (mem_rkeys_rset_of_mem _ _ _ _ (mem_rkeys_rset_self _ _ _))
    refine (rkeys_rset_of_mem _ _ _ ?_).trans h1
    exact mem_rkeys_rset_of_mem _ _ _ _ (mem_rkeys_rset_self _ _ _)
  · rfl

/-! ## C5: guaranteed report keys -/

/-- The thirteen keys the specification guarantees in every report. -/
def guaranteedKeys : List String :=
  ["original_shape", "col_renames", "nulls_dropped", "nulls_filled", "blank_rows_dropped",
   "blank_cols_dropped", "duplicates_dropped", "dtype_changes", "outliers", "outliers_removed",
   "cleaned_shape", "rows_removed", "cols_removed"]

/-- C5: for every input table and every configuration — including one with
every stage disabled — the report produced by `clean_dataframe` has exactly
the thirteen guaranteed keys, in insertion order: `original_shape`,
`col_renames`, `nulls_dropped`, `nulls_filled`, `blank_rows_dropped`,
`blank_cols_dropped`, `duplicates_dropped`, `dtype_changes`, `outliers`,
`outliers_removed`, `cleaned_shape`, `rows_removed`, `cols_removed`
(disabled stages write zero/empty values under the same keys). -/
theorem c5_report_has_guaranteed_keys (f : Frame) (cfg : Config) :
    rkeys (cleanFrame f cfg).2 = guaranteedKeys := by
  simp only [cleanFrame]
  set r0 : Report := rset ([] : Report) "original_shape" (.shape f.shape) with hr0
  set s1 := normalizeStage cfg.normalize_columns f r0 with hs1
  set f1 := trimStage cfg.trim_whitespace s1.1 with hf1
  set s2 := nullStage (cfg.null_handling.getD "none") (cfg.fill_strategy.getD "mode")
    cfg.fill_constant f1 s1.2 with hs2
  set s3 := blankRowsStage cfg.drop_blank_rows s2.1 s2.2 with hs3
  set s4 := blankColsStage cfg.drop_blank_cols s3.1 s3.2 with hs4
  set s5 := dedupStage cfg.drop_duplicates s4.1 s4.2 with hs5
  set s6 := dtypeStage cfg.infer_types s5.1 s5.2 with hs6
  have k0 : rkeys r0 = ["original_shape"] := by
    rw [hr0]
    rfl
  have k1 : rkeys s1.2 = ["original_shape", "col_renames"] := by
    rw [hs1, rkeys_normalizeStage, rkeys_rset_of_not_mem _ _ _ (by rw [k0]; decide), k0]
    rfl
  have k2 : rkeys s2.2 = ["original_shape", "col_renames", "nulls_dropped", "nulls_filled"] := by
    have ka : rkeys (rset s1.2 "nulls_dropped" (.nat 0)) =
        ["original_shape", "col_renames", "nulls_dropped"] := by
      rw [rkeys_rset_of_not_mem _ _ _ (by rw [k1]; decide), k1]
      rfl
    rw [hs2, rkeys_nullStage, rkeys_rset_of_not_mem _ _ _ (by rw [ka]; decide), ka]
    rfl
  have k3 : rkeys s3.2 = ["original_shape", "col_renames", "nulls_dropped", "nulls_filled",
      "blank_rows_dropped"] := by
    rw [hs3, rkeys_blankRowsStage, rkeys_rset_of_not_mem _ _ _ (by rw [k2]; decide), k2]
    rfl
  have k4 : rkeys s4.2 = ["original_shape", "col_renames", "nulls_dropped", "nulls_filled",
      "blank_rows_dropped", "blank_cols_dropped"] := by
    rw [hs4, rkeys_blankColsStage, rkeys_rset_of_not_mem _ _ _ (by rw [k3]; decide), k3]
    rfl
  have k5 : rkeys s5.2 = ["original_shape", "col_renames", "nulls_dropped", "nulls_filled",
      "blank_rows_dropped", "blank_cols_dropped", "duplicates_dropped"] := by
    rw [hs5, rkeys_dedupStage, rkeys_rset_of_not_mem _ _ _ (by rw [k4]; decide), k4]
    rfl
  have k6 : rkeys s6.2 = ["original_shape", "col_renames", "nulls_dropped", "nulls_filled",
      "blank_rows_dropped", "blank_cols_dropped", "duplicates_dropped", "dtype_changes"] := by
    rw [hs6, rkeys_dtypeStage, rkeys_rset_of_not_mem _ _ _ (by rw [k5]; decide), k5]
    rfl
  set s7 := outlierStage cfg.detect_outliers (cfg.outlier_method.getD "iqr")
    (cfg.outlier_threshold.getD (if cfg.outlier_method.getD "iqr" == "iqr" then 3/2 else 3))
    (cfg.outlier_action.getD "report") (arrowStage s6.1) s6.2 with hs7
  have k7 : rkeys s7.2 = ["original_shape", "col_renames", "nulls_dropped", "nulls_filled",
      "blank_rows_dropped", "blank_cols_dropped", "duplicates_dropped", "dtype_changes",
      "outliers", "outliers_removed"] := by
    have ka : rkeys (rset s6.2 "outliers" (.outlierMap [])) =
        ["original_shape", "col_renames", "nulls_dropped", "nulls_filled",
         "blank_rows_dropped", "blank_cols_dropped", "duplicates_dropped", "dtype_changes",
         "outliers"] := by
      rw [rkeys_rset_of_not_mem _ _ _ (by rw [k6]; decide), k6]
      rfl
    rw [hs7, rkeys_outlierStage, rkeys_rset_of_not_mem _ _ _ (by rw [ka]; decide), ka]
    rfl
  have k8 : rkeys (rset s7.2 "cleaned_shape" (.shape s7.1.shape)) =
      ["original_shape", "col_renames", "nulls_dropped", "nulls_filled",
       "blank_rows_dropped", "blank_cols_dropped", "duplicates_dropped", "dtype_changes",
       "outliers", "outliers_removed", "cleaned_shape"] := by
    rw [rkeys_rset_of_not_mem _ _ _ (by rw [k7]; decide), k7]
    rfl
  have k9 : rkeys (rset (rset s7.2 "cleaned_shape" (.shape s7.1.shape)) "rows_removed"
      (.int ((f.shape.1 : Int) - (s7.1.shape.1 : Int)))) =
      ["original_shape", "col_renames", "nulls_dropped", "nulls_filled",
       "blank_rows_dropped", "blank_cols_dropped", "duplicates_dropped", "dtype_changes",
       "outliers", "outliers_removed", "cleaned_shape", "rows_removed"] := by
    rw [rkeys_rset_of_not_mem _ _ _ (by rw [k8]; decide), k8]
    rfl
  rw [rkeys_rset_of_not_mem _ _ _ (by rw [k9]; decide), k9]
  rfl

/-! ## C4: shape monotonicity and the removed-count entries -/

theorem filterRows_nrows_le (f : Frame) (p : Nat → Bool) :
    (filterRows f p).nrows ≤ f.nrows := by
  simpa [filterRows] using (List.length_filter_le _ (List.range f.nrows)).trans (by simp)

theorem filterRows_ncols (f : Frame) (p : Nat → Bool) :
    (filterRows f p).ncols = f.ncols := by
  simp [filterRows, Frame.ncols]

theorem normalizeStage_shape (b : Bool) (f : Frame) (r : Report) :
    (normalizeStage b f r).1.nrows = f.nrows ∧ (normalizeStage b f r).1.ncols = f.ncols := by
  unfold normalizeStage
  split <;> simp [Frame.ncols]

theorem trimStage_shape (b : Bool) (f : Frame) :
    (trimStage b f).nrows = f.nrows ∧ (trimStage b f).ncols = f.ncols := by
  unfold trimStage
  split <;> simp [Frame.ncols]

theorem fillStage_shape (s : String) (k : Option Cell) (f : Frame) :
    (fillStage s k f).1.nrows = f.nrows ∧ (fillStage s k f).1.ncols = f.ncols := by
  simp [fillStage, Frame.ncols]

theorem nullStage_shape (nh s : String) (k : Option Cell) (f : Frame) (r : Report) :
    (nullStage nh s k f r).1.nrows ≤ f.nrows ∧ (nullStage nh s k f r).1.ncols = f.ncols := by
  unfold nullStage
  split
  · exact ⟨filterRows_nrows_le _ _, filterRows_ncols _ _⟩
  · split
    · exact ⟨le_of_eq (fillStage_shape s k f).1, (fillStage_shape s k f).2⟩
    · exact ⟨le_rfl, rfl⟩

theorem blankRowsStage_shape (b : Bool) (f : Frame) (r : Report) :
    (blankRowsStage b f r).1.nrows ≤ f.nrows ∧ (blankRowsStage b f r).1.ncols = f.ncols := by
  unfold blankRowsStage
  split
  · exact ⟨filterRows_nrows_le _ _, filterRows_ncols _ _⟩
  · exact ⟨le_rfl, rfl⟩

theorem blankColsStage_shape (b : Bool) (f : Frame) (r : Report) :
    (blankColsStage b f r).1.nrows = f.nrows ∧ (blankColsStage b f r).1.ncols ≤ f.ncols := by
  unfold blankColsStage
  split
  · exact ⟨rfl, by simpa [dropBlankColsF, Frame.ncols] using List.length_filter_le _ f.cols⟩
  · exact ⟨rfl, le_rfl⟩

theorem dedupStage_shape (b : Bool) (f : Frame) (r : Report) :
    (dedupStage b f r).1.nrows ≤ f.nrows ∧ (dedupStage b f r).1.ncols = f.ncols := by
  unfold dedupStage
  split
  · exact ⟨filterRows_nrows_le _ _, filterRows_ncols _ _⟩
  · exact ⟨le_rfl, rfl⟩

theorem dtypeStage_shape (b : Bool) (f : Frame) (r : Report) :
    (dtypeStage b f r).1.nrows = f.nrows ∧ (dtypeStage b f r).1.ncols = f.ncols := by
  unfold dtypeStage inferStage
  split <;> simp [Frame.ncols]

theorem arrowStage_shape (f : Frame) :
    (arrowStage f).nrows = f.nrows ∧ (arrowStage f).ncols = f.ncols := by
  simp [arrowStage, Frame.ncols]

theorem outlierStage_shape (d : Bool) (m : String) (t : ℚ) (a : String)
    (f : Frame) (r : Report) :
    (outlierStage d m t a f r).1.nrows ≤ f.nrows ∧
      (outlierStage d m t a f r).1.ncols = f.ncols := by
  unfold outlierStage
  split
  · split
    · exact ⟨filterRows_nrows_le _ _, filterRows_ncols _ _⟩
    · exact ⟨le_rfl, rfl⟩
  · exact ⟨le_rfl, rfl⟩

/-- C4: for every input table and every configuration, the cleaned table
has no more rows and no more columns than the original, and the report's
`rows_removed` / `cols_removed` entries are exactly the (non-negative)
differences between `original_shape` and `cleaned_shape`. -/
theorem c4_shapes_monotone (f : Frame) (cfg : Config) :
    (cleanFrame f cfg).1.nrows ≤ f.nrows ∧
    (cleanFrame f cfg).1.ncols ≤ f.ncols ∧
    rget (cleanFrame f cfg).2 "rows_removed" =
      some (.int ((f.nrows : Int) - ((cleanFrame f cfg).1.nrows : Int))) ∧
    rget (cleanFrame f cfg).2 "cols_removed" =
      some (.int ((f.ncols : Int) - ((cleanFrame f cfg).1.ncols : Int))) ∧
    (0 : Int) ≤ (f.nrows : Int) - ((cleanFrame f cfg).1.nrows : Int) ∧
    (0 : Int) ≤ (f.ncols : Int) - ((cleanFrame f cfg).1.ncols : Int) := by
  simp only [cleanFrame]
  set r0 : Report := rset ([] : Report) "original_shape" (.shape f.shape) with hr0
  set s1 := normalizeStage cfg.normalize_columns f r0 with hs1
  set f1 := trimStage cfg.trim_whitespace s1.1 with hf1
  set s2 := nullStage (cfg.null_handling.getD "none") (cfg.fill_strategy.getD "mode")
    cfg.fill_constant f1 s1.2 with hs2
  set s3 := blankRowsStage cfg.drop_blank_rows s2.1 s2.2 with hs3
  set s4 := blankColsStage cfg.drop_blank_cols s3.1 s3.2 with hs4
  set s5 := dedupStage cfg.drop_duplicates s4.1 s4.2 with hs5
  set s6 := dtypeStage cfg.infer_types s5.1 s5.2 with hs6
  set s7 := outlierStage cfg.detect_outliers (cfg.outlier_method.getD "iqr")
    (cfg.outlier_threshold.getD (if cfg.outlier_method.getD "iqr" == "iqr" then 3/2 else 3))
    (cfg.outlier_action.getD "report") (arrowStage s6.1) s6.2 with hs7
  have hn : s7.1.nrows ≤ f.nrows := by
    calc s7.1.nrows ≤ (arrowStage s6.1).nrows := by
          rw [hs7]; exact (outlierStage_shape _ _ _ _ _ _).1
      _ = s6.1.nrows := (arrowStage_shape _).1
      _ = s5.1.nrows := by rw [hs6]; exact (dtypeStage_shape _ _ _).1
      _ ≤ s4.1.nrows := by rw [hs5]; exact (dedupStage_shape _ _ _).1
      _ = s3.1.nrows := by rw [hs4]; exact (blankColsStage_shape _ _ _).1
      _ ≤ s2.1.nrows := by rw [hs3]; exact (blankRowsStage_shape _ _ _).1
      _ ≤ f1.nrows := by rw [hs2]; exact (nullStage_shape _ _ _ _ _).1
      _ = s1.1.nrows := by rw [hf1]; exact (trimStage_shape _ _).1
      _ = f.nrows := by rw [hs1]; exact (normalizeStage_shape _ _ _).1
  have hc : s7.1.ncols ≤ f.ncols := by
    calc s7.1.ncols = (arrowStage s6.1).ncols := by
          rw [hs7]; exact (outlierStage_shape _ _ _ _ _ _).2
      _ = s6.1.ncols := (arrowStage_shape _).2
      _ = s5.1.ncols := by rw [hs6]; exact (dtypeStage_shape _ _ _).2
      _ = s4.1.ncols := by rw [hs5]; exact (dedupStage_shape _ _ _).2
      _ ≤ s3.1.ncols := by rw [hs4]; exact (blankColsStage_shape _ _ _).2
      _ = s2.1.ncols := by rw [hs3]; exact (blankRowsStage_shape _ _ _).2
      _ = f1.ncols := by rw [hs2]; exact (nullStage_shape _ _ _ _ _).2
      _ = s1.1.ncols := by rw [hf1]; exact (trimStage_shape _ _).2
      _ = f.ncols := by rw [hs1]; exact (normalizeStage_shape _ _ _).2
  refine ⟨hn, hc, ?_, ?_, ?_, ?_⟩
  · rw [rget_rset_ne _ _ _ _ (by decide), rget_rset_self]
    simp [Frame.shape]
  · rw [rget_rset_self]
    simp [Frame.shape, Frame.ncols]
  · omega
  · omega

/-! ## C1: datetime type inference (code bug: the date-like pattern does not compile) -/

/-- Does the character list contain a run of at least 3 alphabetic
characters?  (`run` is the length of the current run.) -/
def alphaRunAux : Nat → List Char → Bool
  | run, [] => decide (3 ≤ run)
  | run, c :: rest =>
    if c.isAlpha then alphaRunAux (run + 1) rest
    else decide (3 ≤ run) || alphaRunAux 0 rest

/-- Modelled from the spec: the date-like heuristic the type inferencer is
meant to apply to each value — the text contains a separator among `/ - .`
or an alphabetic run of length ≥ 3.  The source's pattern for this check
(`[/\\-.]|[A-Za-z]{3,}`) has a malformed character class and never
compiles, so the check (and everything behind it) is dead code; it is
modelled here separately from the pipeline. -/
def dateLikeSpec (s : String) : Bool :=
  s.toList.any (fun c => c == '/' || c == '-' || c == '.') || alphaRunAux 0 s.toList

/-- The C1 failing input: a text column of four unambiguous date strings. -/
def dateFrame : Frame :=
  { nrows := 4
    cols := [⟨"d", .object,
      [.str "2020-01-01", .str "2020/02/02", .str "2020-03-03", .str "2020-04-04"]⟩] }

/-- The C1 configuration: type inference on, `date_detect_thresh = 0.5`. -/
def dateConfig : Config := { infer_types := true, date_detect_thresh := some (1/2) }

/-- C1 (code bug): on a column whose values are all date-like under the
intended heuristic (fraction 1 ≥ 0.5) and all parse as dates, the pipeline
records no dtype change and the column never becomes datetime (it leaves
the pipeline as pandas `string` dtype): the date-like regular expression in
the source fails to compile, the exception is swallowed by the surrounding
handler, and the datetime attempt never commits anything. -/
theorem c1_datetime_never_committed :
    dateFrame.cols.map (fun c => c.cells.countP (fun x => dateLikeSpec (cellToStr x))) = [4] ∧
    rget (cleanFrame dateFrame dateConfig).2 "dtype_changes" = some (.dtypeMap []) ∧
    (cleanFrame dateFrame dateConfig).1.cols.map Col.dtype = [.stringT] :=
  ⟨by decide, by decide, by decide⟩

/-! ## C2: mean/median fill on non-numeric columns (corrected) -/

/-- The C2 input: an object column with one missing cell. -/
def c2Frame : Frame := { nrows := 3, cols := [⟨"t", .object, [.str "a", .na, .str "a"]⟩] }

/-- The C2 configuration: fill nulls with the mean. -/
def c2Config : Config := { null_handling := some "fill", fill_strategy := some "mean" }

/-- C2 counterexample: with `fill_strategy = 'mean'`, the non-numeric
column `t` is not skipped: its missing cell is filled with empty text (the
finalizer then renders the cells as text), and `t` appears in
`report['nulls_filled']` with count 1 — contradicting the claim that such
columns are left unchanged and unreported. -/
theorem c2_counterexample :
    rget (cleanFrame c2Frame c2Config).2 "nulls_filled" = some (.natMap [("t", 1)]) ∧
    (cleanFrame c2Frame c2Config).1.cols.map Col.cells = [[.str "a", .str "", .str "a"]] :=
  ⟨by decide, by decide⟩

/-- C2 amended: under `fill_strategy` `mean` or `median`, a missing-valued
non-numeric (object-dtype) column is not skipped: it falls through to the
generic fallback branch, every missing cell is filled with empty text, and
the column is recorded in `nulls_filled` with its missing-cell count. -/
theorem c2_nonnumeric_mean_fill_falls_back (strategy : String) (const : Option Cell)
    (f : Frame) (c : Col)
    (hs : strategy = "mean" ∨ strategy = "median")
    (hc : c ∈ f.cols) (hd : c.dtype = .object) (hna : c.naCount ≠ 0) :
    { c with cells := fillCells c.cells (.str "") } ∈ (fillStage strategy const f).1.cols ∧
    (c.name, c.naCount) ∈ (fillStage strategy const f).2 := by
  have hb : fillBranch strategy const c = some (fillCells c.cells (.str "")) := by
    rcases hs with h | h <;> subst h <;> simp [fillBranch, fallbackFill, hd]
  have hstep : fillColStep strategy const c =
      ({ c with cells := fillCells c.cells (.str "") }, some (c.name, c.naCount)) := by
    simp [fillColStep, hna, hb]
  constructor
  · simp only [fillStage, List.map_map]
    exact List.mem_map.mpr ⟨c, hc, by simp [hstep]⟩
  · simp only [fillStage, List.filterMap_map]
    exact List.mem_filterMap.mpr ⟨c, hc, by simp [hstep]⟩

/-- Witness column for the C2 amended theorem. -/
def c2WitnessCol : Col := ⟨"t", .object, [.str "a", .na, .str "a"]⟩

theorem c2_amended_witness :
    { c2WitnessCol with cells := fillCells c2WitnessCol.cells (.str "") } ∈
      (fillStage "mean" none { nrows := 3, cols := [c2WitnessCol] }).1.cols ∧
    (c2WitnessCol.name, c2WitnessCol.naCount) ∈
      (fillStage "mean" none { nrows := 3, cols := [c2WitnessCol] }).2 :=
  c2_nonnumeric_mean_fill_falls_back "mean" none _ c2WitnessCol (Or.inl rfl)
    (by decide) rfl (by decide)

/-! ## C6: whitespace trimming preserves the missing marker -/

/-- C6: with `trim_whitespace` enabled, every object-dtype column is
replaced by its cell-wise trim: each non-missing cell becomes its text
rendering with surrounding whitespace stripped, while each missing cell
stays the missing marker — it is never turned into a literal text value. -/
theorem c6_trim_preserves_missing (f : Frame) (c : Col)
    (hc : c ∈ f.cols) (hd : c.dtype = .object) :
    { c with cells := c.cells.map trimCell } ∈ (trimStage true f).cols ∧
    (∀ x : Cell, x.isna = true → trimCell x = .na) ∧
    (∀ x : Cell, x.isna = false → trimCell x = .str (strStrip (cellToStr x))) := by
  refine ⟨?_, ?_, ?_⟩
  · simp only [trimStage, if_true]
    exact List.mem_map.mpr ⟨c, hc, by simp [hd, guardCol, trimColBody]⟩
  · intro x hx
    cases x <;> simp_all [trimCell, Cell.isna]
  · intro x hx
    cases x <;> simp_all [trimCell, Cell.isna]

/-- Witness column for the C6 theorem. -/
def c6WitnessCol : Col := ⟨"t", .object, [.str " a ", .na]⟩

theorem c6_trim_witness :
    { c6WitnessCol with cells := c6WitnessCol.cells.map trimCell } ∈
      (trimStage true { nrows := 2, cols := [c6WitnessCol] }).cols ∧
    (∀ x : Cell, x.isna = true → trimCell x = .na) ∧
    (∀ x : Cell, x.isna = false → trimCell x = .str (strStrip (cellToStr x))) :=
  c6_trim_preserves_missing { nrows := 2, cols := [c6WitnessCol] } c6WitnessCol
    (by decide) rfl

/-! ## C9: per-column failures are isolated -/

/-- C9: the per-column `try/except` structure shared by the trimming,
filling and coercion loops (modelled by `guardCol` over an `Option`-valued
body) never aborts a stage: the guarded map always yields a column list of
the same length, a column whose body fails is left exactly in its prior
state, and every other column is still processed normally. -/
theorem c9_per_column_failure_isolated (body : Col → Option Col) (cols : List Col)
    (i : Nat) (c : Col) (hc : cols[i]? = some c) :
    (cols.map (guardCol body)).length = cols.length ∧
    (body c = none → (cols.map (guardCol body))[i]? = some c) ∧
    (∀ c' : Col, body c = some c' → (cols.map (guardCol body))[i]? = some c') := by
  refine ⟨List.length_map _ _, ?_, ?_⟩
  · intro hb
    rw [List.getElem?_map, hc]
    simp [guardCol, hb]
  · intro c' hb
    rw [List.getElem?_map, hc]
    simp [guardCol, hb]

/-- Witness column for the C9 theorem. -/
def c9WitnessCol : Col := ⟨"w", .object, [.na]⟩

theorem c9_witness :
    ([c9WitnessCol].map (guardCol (fun _ => none))).length = 1 ∧
    ([c9WitnessCol].map (guardCol (fun _ => none)))[0]? = some c9WitnessCol :=
  ⟨(c9_per_column_failure_isolated (fun _ => none) [c9WitnessCol] 0 c9WitnessCol rfl).1,
   (c9_per_column_failure_isolated (fun _ => none) [c9WitnessCol] 0 c9WitnessCol rfl).2.1 rfl⟩

/-! ## C10: fill-strategy defaulting and the unrecognized-strategy fallback
(corrected) -/

/-- The C10 counterexample input: a pandas string-dtype column with one
missing cell. -/
def c10StringFrame : Frame :=
  { nrows := 2, cols := [⟨"s", .stringT, [.str "a", .na]⟩] }

/-- The C10 counterexample configuration: fill with an unrecognized
strategy. -/
def c10BogusConfig : Config :=
  { null_handling := some "fill", fill_strategy := some "bogus" }

/-- C10 counterexample: under an unrecognized fill strategy, a pandas
string-dtype column with a missing cell is neither filled with zero nor
counted: `fillna(0)` raises on a string array, the `except` skips the
column, `nulls_filled` stays empty, and the missing cell survives the
whole pipeline — contradicting the claim that every non-object column has
its missing cells filled with zero and counted. -/
theorem c10_counterexample :
    rget (cleanFrame c10StringFrame c10BogusConfig).2 "nulls_filled" = some (.natMap []) ∧
    (cleanFrame c10StringFrame c10BogusConfig).1.cols.map Col.cells = [[.str "a", .na]] :=
  ⟨by decide, by decide⟩

/-- C10 amended: with `null_handling = 'fill'` and no `fill_strategy` key,
the pipeline does not fail and behaves exactly as `fill_strategy = 'mode'`.
An unrecognized strategy string falls to the fallback branch, which fills
missing cells with empty text in object-dtype columns and zero in
numeric-dtype columns, recording the counts in `nulls_filled`; on a pandas
string-dtype column, however, the zero-fill fails and the column is left
unchanged and unrecorded. -/
theorem c10_fill_strategy_defaulting :
    (∀ (f : Frame) (cfg : Config), cfg.fill_strategy = none →
      cleanFrame f cfg = cleanFrame f { cfg with fill_strategy := some "mode" }) ∧
    (∀ (strategy : String) (const : Option Cell) (f : Frame) (c : Col),
      strategy ≠ "mean" → strategy ≠ "median" → strategy ≠ "mode" → strategy ≠ "constant" →
      c ∈ f.cols → c.naCount ≠ 0 → (c.dtype = .object ∨ c.dtype = .numeric) →
      { c with cells := fillCells c.cells (if c.dtype == .object then Cell.str "" else .num 0) }
          ∈ (fillStage strategy const f).1.cols ∧
      (c.name, c.naCount) ∈ (fillStage strategy const f).2) ∧
    (∀ (strategy : String) (const : Option Cell) (c : Col),
      strategy ≠ "mean" → strategy ≠ "median" → strategy ≠ "mode" → strategy ≠ "constant" →
      c.dtype = .stringT →
      fillColStep strategy const c = (c, none)) := by
  refine ⟨?_, ?_, ?_⟩
  · intro f cfg h
    simp [cleanFrame, h]
  · intro strategy const f c h1 h2 h3 h4 hc hna hd
    have hb : fillBranch strategy const c =
        some (fillCells c.cells (if c.dtype == .object then Cell.str "" else .num 0)) := by
      rcases hd with hd | hd <;>
        simp [fillBranch, fallbackFill, h1, h2, h3, h4, hd]
    have hstep : fillColStep strategy const c =
        ({ c with cells := fillCells c.cells (if c.dtype == .object then Cell.str "" else .num 0) }, some (c.name, c.naCount)) := by
      simp [fillColStep, hna, hb]
    constructor
    · simp only [fillStage, List.map_map]
      exact List.mem_map.mpr ⟨c, hc, by simp [hstep]⟩
    · simp only [fillStage, List.filterMap_map]
      exact List.mem_filterMap.mpr ⟨c, hc, by simp [hstep]⟩
  · intro strategy const c h1 h2 h3 h4 hd
    have hb : fillBranch strategy const c = none := by
      simp [fillBranch, fallbackFill, h1, h2, h3, h4, hd]
    unfold fillColStep
    split
    · rfl
    · rw [hb]

/-- Witness frame for the C10 theorem. -/
def c10Frame : Frame := { nrows := 2, cols := [⟨"n", .numeric, [.num 5, .na]⟩] }

/-- Witness configuration for the C10 theorem (no `fill_strategy` key). -/
def c10Config : Config := { null_handling := some "fill" }

theorem c10_witness :
    cleanFrame c10Frame c10Config =
      cleanFrame c10Frame { c10Config with fill_strategy := some "mode" } ∧
    ({ (⟨"n", .numeric, [.num 5, .na]⟩ : Col) with
        cells := fillCells [.num 5, .na]
          (if (⟨"n", .numeric, [.num 5, .na]⟩ : Col).dtype == .object
           then Cell.str "" else .num 0) } ∈ (fillStage "bogus" none c10Frame).1.cols ∧
     ((⟨"n", .numeric, [.num 5, .na]⟩ : Col).name,
       (⟨"n", .numeric, [.num 5, .na]⟩ : Col).naCount) ∈ (fillStage "bogus" none c10Frame).2) ∧
    fillColStep "bogus" none ⟨"s", .stringT, [.str "a", .na]⟩ =
      (⟨"s", .stringT, [.str "a", .na]⟩, none) :=
  ⟨c10_fill_strategy_defaulting.1 c10Frame c10Config rfl,
   c10_fill_strategy_defaulting.2.1 "bogus" none c10Frame ⟨"n", .numeric, [.num 5, .na]⟩
     (by decide) (by decide) (by decide) (by decide) (by decide) (by decide) (Or.inr rfl),
   c10_fill_strategy_defaulting.2.2 "bogus" none ⟨"s", .stringT, [.str "a", .na]⟩
     (by decide) (by decide) (by decide) (by decide) rfl⟩

/-! ## C3: identifier-like columns are excluded from outlier analysis -/

theorem outlierStage_outliers_idFree (d : Bool) (m : String) (t : ℚ) (a : String)
    (f : Frame) (r : Report) (mm : List (String × Nat × ℚ))
    (h : rget (outlierStage d m t a f r).2 "outliers" = some (.outlierMap mm)) :
    ∀ e ∈ mm, idLike e.1 = false := by
  intro e he
  unfold outlierStage at h
  split at h
  · rw [rget_rset_ne _ _ _ _ (by decide), rget_rset_self] at h
    have hmm : mm = (outlierFold m t a f.nrows f.cols).1.filter (fun e => !(idLike e.1)) := by
      injection h with h
      injection h with h
      exact h.symm
    rw [hmm] at he
    have := (List.mem_filter.mp he).2
    simpa using this
  · rw [rget_rset_ne _ _ _ _ (by decide), rget_rset_self] at h
    have hmm : mm = [] := by
      injection h with h
      injection h with h
      exact h.symm
    rw [hmm] at he
    simp at he

theorem eligibleCols_set (cols : List Col) (i : Nat) (c' : Col) (hi : i < cols.length)
    (h1 : idLike cols[i].name = true) (h2 : idLike c'.name = true) :
    eligibleCols (cols.set i c') = eligibleCols cols := by
  induction cols generalizing i with
  | nil => simp at hi
  | cons hd tl ih =>
    cases i with
    | zero =>
      have hp1 : (hd.dtype == Dtype.numeric && !(idLike hd.name)) = false := by
        simp only [List.getElem_cons_zero] at h1
        simp [h1]
      have hp2 : (c'.dtype == Dtype.numeric && !(idLike c'.name)) = false := by
        simp [h2]
      simp [eligibleCols, List.filter_cons, hp1, hp2]
    | succ n =>
      have hn : n < tl.length := by simpa using hi
      have h1' : idLike tl[n].name = true := by
        simpa using h1
      simp only [List.set_cons_succ, eligibleCols, List.filter_cons]
      have := ih n hn h1'
      simp only [eligibleCols] at this
      rw [this]

/-- C3: identifier-like numeric columns (name matching `^id$`, `_id$` or
`^id_`, case-insensitively) are excluded from outlier analysis — for every
table, configuration and outcome, no identifier-like key ever appears in
`report['outliers']`; and for every method, threshold, action and value
distribution, replacing the cells of an identifier-like column changes
neither the per-column outlier report nor the accumulated removal mask
(the column never contributes to a drop decision). -/
theorem c3_identifier_columns_excluded :
    (∀ (f : Frame) (cfg : Config) (m : List (String × Nat × ℚ)),
      rget (cleanFrame f cfg).2 "outliers" = some (.outlierMap m) →
      ∀ e ∈ m, idLike e.1 = false) ∧
    (∀ (method : String) (t : ℚ) (action : String) (nrows : Nat) (cols : List Col)
      (i : Nat) (c' : Col) (hi : i < cols.length),
      idLike cols[i].name = true → idLike c'.name = true →
      outlierFold method t action nrows (cols.set i c') =
        outlierFold method t action nrows cols) := by
  constructor
  · intro f cfg m hm e he
    simp only [cleanFrame] at hm
    rw [rget_rset_ne _ _ _ _ (by decide), rget_rset_ne _ _ _ _ (by decide),
      rget_rset_ne _ _ _ _ (by decide)] at hm
    exact outlierStage_outliers_idFree _ _ _ _ _ _ m hm e he
  · intro method t action nrows cols i c' hi h1 h2
    unfold outlierFold
    rw [eligibleCols_set cols i c' hi h1 h2]

/-- Witness frame for the C3 theorem: the repository's own test case (an
extreme value hiding in `user_id`). -/
def c3Frame : Frame :=
  { nrows := 3
    cols := [ ⟨"id", .numeric, [.num 1, .num 2, .num 3]⟩
            , ⟨"value", .numeric, [.num 10, .num 12, .num 11]⟩
            , ⟨"user_id", .numeric, [.num 1000000, .num 2, .num 3]⟩ ] }

/-- Witness configuration for the C3 theorem. -/
def c3Config : Config :=
  { detect_outliers := true
    outlier_method := some "zscore"
    outlier_threshold := some 3
    outlier_action := some "drop" }

theorem c3_witness :
    idLike ("value", 0, (0 : ℚ)).1 = false ∧
    outlierFold "zscore" 3 "drop" 3
        ([⟨"user_id", .numeric, [.num 1000000, .num 2, .num 3]⟩].set 0
          ⟨"user_id", .numeric, [.num 0, .num 0, .num 0]⟩) =
      outlierFold "zscore" 3 "drop" 3 [⟨"user_id", .numeric, [.num 1000000, .num 2, .num 3]⟩] :=
  ⟨c3_identifier_columns_excluded.1 c3Frame c3Config [("value", 0, 0)] (by decide)
      ("value", 0, 0) (by decide),
   c3_identifier_columns_excluded.2 "zscore" 3 "drop" 3
      [⟨"user_id", .numeric, [.num 1000000, .num 2, .num 3]⟩] 0
      ⟨"user_id", .numeric, [.num 0, .num 0, .num 0]⟩ (by decide) (by decide) (by decide)⟩

/-! ## C7: z-score outlier characterization -/

theorem popVar_nonneg (vals : List ℚ) : 0 ≤ popVar vals := by
  unfold popVar
  apply div_nonneg
  · apply List.sum_nonneg
    intro x hx
    rcases List.mem_map.mp hx with ⟨v, hv, rfl⟩
    positivity
  · positivity

/-- The z-score example: 20 values of 10 plus one value of 1000. -/
def zscoreFrame : Frame :=
  { nrows := 21
    cols := [⟨"x", .numeric, List.replicate 20 (Cell.num 10) ++ [Cell.num 1000]⟩] }

/-- The z-score example configuration: threshold 3.0, drop action. -/
def zscoreConfig : Config :=
  { detect_outliers := true
    outlier_method := some "zscore"
    outlier_threshold := some 3
    outlier_action := some "drop" }

/-- C7: with `outlier_method = 'zscore'`, (i) a column whose non-missing
values have population variance zero flags nothing; (ii) otherwise a value
`v` is flagged exactly when `|v − mean| / stddev` exceeds the threshold,
with `stddev = √(population variance)` (ddof 0); and (iii) on the concrete
column of 20 tens and one 1000 with threshold 3 and the drop action,
exactly one row is removed and `report['outliers']['x'].count = 1`. -/
theorem c7_zscore_flagging (t : ℚ) (vals : List ℚ) (v : ℚ) :
    (popVar vals = 0 → ∀ x : Cell, zscoreMask t vals x = false) ∧
    (popVar vals ≠ 0 →
      (zscoreMask t vals (.num v) = true ↔
        (t : ℝ) < |(v : ℝ) - ((vals.sum / (vals.length : ℚ) : ℚ) : ℝ)| /
          Real.sqrt ((popVar vals : ℚ) : ℝ))) ∧
    ((cleanFrame zscoreFrame zscoreConfig).1.nrows = 20 ∧
     rget (cleanFrame zscoreFrame zscoreConfig).2 "outliers" =
       some (.outlierMap [("x", 1, 1/21)]) ∧
     rget (cleanFrame zscoreFrame zscoreConfig).2 "outliers_removed" = some (.nat 1)) := by
  refine ⟨?_, ?_, by decide, by decide, by decide⟩
  · intro h x
    simp [zscoreMask, h]
  · intro h
    have hnn : 0 ≤ popVar vals := popVar_nonneg vals
    have hnnR : (0 : ℝ) ≤ ((popVar vals : ℚ) : ℝ) := by exact_mod_cast hnn
    have hpos : 0 < popVar vals := lt_of_le_of_ne hnn (Ne.symm h)
    have hposR : (0 : ℝ) < ((popVar vals : ℚ) : ℝ) := by exact_mod_cast hpos
    have hS : 0 < Real.sqrt ((popVar vals : ℚ) : ℝ) := Real.sqrt_pos.mpr hposR
    have habs : ((v : ℝ) - ((vals.sum / (vals.length : ℚ) : ℚ) : ℝ)) =
        (((v - vals.sum / vals.length : ℚ) : ℚ) : ℝ) := by push_cast; ring
    simp only [zscoreMask, beq_iff_eq, h, if_false, Bool.or_eq_true, decide_eq_true_iff]
    rw [lt_div_iff₀ hS]
    constructor
    · rintro (ht | hgt)
      · have htR : (t : ℝ) < 0 := by exact_mod_cast ht
        calc (t : ℝ) * Real.sqrt ((popVar vals : ℚ) : ℝ) < 0 :=
              mul_neg_of_neg_of_pos htR hS
          _ ≤ |(v : ℝ) - ((vals.sum / (vals.length : ℚ) : ℚ) : ℝ)| := abs_nonneg _
      · by_cases ht : t < 0
        · have htR : (t : ℝ) < 0 := by exact_mod_cast ht
          calc (t : ℝ) * Real.sqrt ((popVar vals : ℚ) : ℝ) < 0 :=
                mul_neg_of_neg_of_pos htR hS
            _ ≤ |(v : ℝ) - ((vals.sum / (vals.length : ℚ) : ℚ) : ℝ)| := abs_nonneg _
        · push_neg at ht
          by_contra hcon
          push_neg at hcon
          have hsq : |(v : ℝ) - ((vals.sum / (vals.length : ℚ) : ℚ) : ℝ)| ^ 2 ≤
              ((t : ℝ) * Real.sqrt ((popVar vals : ℚ) : ℝ)) ^ 2 :=
            pow_le_pow_left₀ (abs_nonneg _) hcon 2
          rw [mul_pow, Real.sq_sqrt hnnR, sq_abs, habs] at hsq
          have hle : ((v - vals.sum / vals.length : ℚ) ^ 2 : ℚ) ≤ (t : ℚ) ^ 2 * popVar vals := by
            exact_mod_cast hsq
          exact absurd hgt (not_lt.mpr hle)
    · intro hlt
      by_cases ht : t < 0
      · exact Or.inl ht
      · push_neg at ht
        right
        have hsq : ((t : ℝ) * Real.sqrt ((popVar vals : ℚ) : ℝ)) ^ 2 <
            |(v : ℝ) - ((vals.sum / (vals.length : ℚ) : ℚ) : ℝ)| ^ 2 :=
          pow_lt_pow_left₀ hlt (by positivity) (by norm_num)
        rw [mul_pow, Real.sq_sqrt hnnR, sq_abs, habs] at hsq
        exact_mod_cast hsq

theorem c7_zscore_witness :
    (zscoreMask 3 [5, 5] (.num 99) = false) ∧
    (zscoreMask 3 [0, 2] (.num 2) = true ↔
      ((3 : ℚ) : ℝ) < |((2 : ℚ) : ℝ) - ((([0, 2] : List ℚ).sum / (([0, 2] : List ℚ).length : ℚ) : ℚ) : ℝ)| /
        Real.sqrt ((popVar [0, 2] : ℚ) : ℝ)) :=
  ⟨(c7_zscore_flagging 3 [5, 5] 0).1 (by decide) (.num 99),
   (c7_zscore_flagging 3 [0, 2] 2).2.1 (by decide)⟩

/-! ## C8: re-running the pipeline (corrected) -/

/-- The C8 input: twenty distinct text values of which exactly nineteen
parse as numbers — just enough (19/20 = 0.95) for the finalizer's numeric
coercion to fire. -/
def rerunFrame : Frame :=
  { nrows := 20
    cols := [⟨"a", .object,
      ((List.range 19).map (fun i => Cell.str (toString (i + 1)))) ++ [Cell.str "abc"]⟩] }

/-- The C8 configuration: blank-row pruning, blank-column pruning and
duplicate removal all enabled. -/
def rerunConfig : Config :=
  { drop_blank_rows := true, drop_blank_cols := true, drop_duplicates := true }

/-- C8 counterexample: with pruning and dedup enabled, the first run drops
nothing, but its Arrow-compatibility finalizer coerces the 95%-numeric
text column to numeric, turning `"abc"` into a missing cell; the second
run then drops that now-blank row — its `blank_rows_dropped` is 1, not 0,
and its `cleaned_shape` (19, 1) differs from its `original_shape`
(20, 1), contradicting the claim. -/
theorem c8_counterexample :
    rget (cleanFrame rerunFrame rerunConfig).2 "blank_rows_dropped" = some (.nat 0) ∧
    rget (cleanFrame (cleanFrame rerunFrame rerunConfig).1 rerunConfig).2
      "blank_rows_dropped" = some (.nat 1) ∧
    (cleanFrame (cleanFrame rerunFrame rerunConfig).1 rerunConfig).1.shape = (19, 1) ∧
    (cleanFrame rerunFrame rerunConfig).1.shape = (20, 1) :=
  ⟨by decide, by decide, by decide, by decide⟩

/-! ### Idempotence of the pruning and dedup transforms -/

theorem getD_map_lt {α β : Type} (g : α → β) (l : List α) (j : Nat) (d : β)
    (h : j < l.length) : (l.map g).getD j d = g l[j] := by
  simp [List.getD_eq_getElem?_getD, List.getElem?_map, List.getElem?_eq_getElem h]

theorem range_map_getD {α : Type} (l : List α) (d : α) :
    (List.range l.length).map (fun i => l.getD i d) = l := by
  apply List.ext_getElem (by simp)
  intro i h1 h2
  simp [List.getD_eq_getElem?_getD, List.getElem?_eq_getElem h2]

theorem filterRows_WF (f : Frame) (p : Nat → Bool) : (filterRows f p).WF := by
  intro c hc
  simp only [filterRows] at hc ⊢
  rcases List.mem_map.mp hc with ⟨c0, _, rfl⟩
  simp

theorem rowCells_filterRows (f : Frame) (p : Nat → Bool) (j : Nat)
    (hj : j < ((List.range f.nrows).filter p).length) :
    rowCells (filterRows f p) j = rowCells f (((List.range f.nrows).filter p)[j]) := by
  simp only [rowCells, filterRows, List.map_map]
  apply List.map_congr_left
  intro c _
  simp only [Function.comp]
  exact getD_map_lt _ _ _ _ hj

theorem keep_mem_props (f : Frame) (p : Nat → Bool) (j : Nat)
    (hj : j < ((List.range f.nrows).filter p).length) :
    ((List.range f.nrows).filter p)[j] < f.nrows ∧
      p (((List.range f.nrows).filter p)[j]) = true := by
  have hmem : ((List.range f.nrows).filter p)[j] ∈ (List.range f.nrows).filter p :=
    List.getElem_mem _
  have := List.mem_filter.mp hmem
  exact ⟨List.mem_range.mp this.1, this.2⟩

theorem filterRows_id (f : Frame) (p : Nat → Bool) (hwf : f.WF)
    (hp : ∀ i < f.nrows, p i = true) : filterRows f p = f := by
  have hkeep : (List.range f.nrows).filter p = List.range f.nrows :=
    List.filter_eq_self.mpr (fun a ha => hp a (List.mem_range.mp ha))
  cases f with
  | mk n cols =>
    simp only [filterRows, hkeep, List.length_range]
    congr 1
    conv_rhs => rw [← List.map_id cols]
    apply List.map_congr_left
    intro c hc
    have hlen : c.cells.length = n := hwf c hc
    have h := range_map_getD c.cells Cell.na
    rw [hlen] at h
    simp only [List.getD_eq_getElem?_getD] at h
    simp [h]
  -- works because the well-formedness hypothesis pins each column's length

theorem rowBlank_filterRows (f : Frame) (p : Nat → Bool) (j : Nat)
    (hj : j < ((List.range f.nrows).filter p).length) :
    (filterRows f p).rowBlank j = f.rowBlank (((List.range f.nrows).filter p)[j]) := by
  unfold Frame.rowBlank
  rw [rowCells_filterRows f p j hj]

theorem dropBlankRowsF_noBlank (f : Frame) (i : Nat)
    (hi : i < (dropBlankRowsF f).nrows) : (dropBlankRowsF f).rowBlank i = false := by
  unfold dropBlankRowsF at hi ⊢
  rw [rowBlank_filterRows f _ i hi]
  have h := (keep_mem_props f _ i hi).2
  simpa using h

theorem dropBlankColsF_WF (f : Frame) (h : f.WF) : (dropBlankColsF f).WF := by
  intro c hc
  exact h c (List.mem_of_mem_filter hc)

theorem dropBlankColsF_noBlankCols (f : Frame) (c : Col)
    (hc : c ∈ (dropBlankColsF f).cols) : c.blank = false := by
  unfold dropBlankColsF at hc
  have h := (List.mem_filter.mp hc).2
  simpa using h

/-- A non-blank row stays non-blank when the all-missing columns are
dropped: its witnessing non-missing cell lives in a column that is kept. -/
theorem dropBlankColsF_rowBlank (f : Frame) (i : Nat)
    (h : f.rowBlank i = false) : (dropBlankColsF f).rowBlank i = false := by
  unfold Frame.rowBlank rowCells at h ⊢
  rw [List.all_eq_false] at h ⊢
  rcases h with ⟨x, hx, hnx⟩
  rcases List.mem_map.mp hx with ⟨c, hc, rfl⟩
  refine ⟨c.cells.getD i Cell.na, ?_, hnx⟩
  apply List.mem_map.mpr
  refine ⟨c, ?_, rfl⟩
  unfold dropBlankColsF
  apply List.mem_filter.mpr
  refine ⟨hc, ?_⟩
  have hblank : c.blank = false := by
    unfold Col.blank
    rw [List.all_eq_false]
    refine ⟨c.cells.getD i Cell.na, ?_, hnx⟩
    rcases hget : c.cells[i]? with _ | x0
    · exfalso
      apply hnx
      simp [List.getD_eq_getElem?_getD, hget, Cell.isna]
    · have : c.cells.getD i Cell.na = x0 := by
        simp [List.getD_eq_getElem?_getD, hget]
      rw [this]
      exact List.getElem?_mem hget
  simp [hblank]

theorem isFirstOccurrence_iff (f : Frame) (i : Nat) :
    isFirstOccurrence f i = true ↔ ∀ j < i, rowCells f j ≠ rowCells f i := by
  unfold isFirstOccurrence
  simp [List.any_eq_false, List.mem_range]

/-- Every row has a first-occurrence representative with the same cells. -/
theorem exists_first_equal (f : Frame) (i : Nat) :
    ∃ m, m ≤ i ∧ rowCells f m = rowCells f i ∧ isFirstOccurrence f m = true := by
  have hP : ∃ j, rowCells f j = rowCells f i := ⟨i, rfl⟩
  refine ⟨Nat.find hP, Nat.find_min' hP rfl, Nat.find_spec hP, ?_⟩
  rw [isFirstOccurrence_iff]
  intro j hj he
  exact Nat.find_min hP hj (he.trans (Nat.find_spec hP))

theorem dedupF_noDups (f : Frame) (j1 j2 : Nat) (h1 : j1 < (dedupF f).nrows)
    (h2 : j2 < (dedupF f).nrows) (hlt : j1 < j2) :
    rowCells (dedupF f) j1 ≠ rowCells (dedupF f) j2 := by
  simp only [dedupF, filterRows] at h1 h2
  have h1' : j1 < ((List.range f.nrows).filter (isFirstOccurrence f)).length := by
    simpa using h1
  have h2' : j2 < ((List.range f.nrows).filter (isFirstOccurrence f)).length := by
    simpa using h2
  unfold dedupF
  rw [rowCells_filterRows f _ j1 h1', rowCells_filterRows f _ j2 h2']
  have hpw : List.Pairwise (· < ·) ((List.range f.nrows).filter (isFirstOccurrence f)) :=
    (List.pairwise_lt_range f.nrows).filter _
  have hklt := List.pairwise_iff_getElem.mp hpw j1 j2 h1' h2' hlt
  have hfirst := (keep_mem_props f (isFirstOccurrence f) j2 h2').2
  intro he
  exact (isFirstOccurrence_iff f _).mp hfirst _ hklt he

theorem dedupF_rowBlank (f : Frame) (j : Nat) (hj : j < (dedupF f).nrows)
    (h : ∀ i < f.nrows, f.rowBlank i = false) : (dedupF f).rowBlank j = false := by
  unfold dedupF at hj ⊢
  rw [rowBlank_filterRows f _ j hj]
  exact h _ (keep_mem_props f _ j hj).1

theorem dedupF_colBlank (f : Frame) (hwf : f.WF) (c' : Col)
    (hc' : c' ∈ (dedupF f).cols) (hall : ∀ c ∈ f.cols, c.blank = false) :
    c'.blank = false := by
  simp only [dedupF, filterRows] at hc'
  rcases List.mem_map.mp hc' with ⟨c, hc, rfl⟩
  have hblank := hall c hc
  unfold Col.blank at hblank ⊢
  rw [List.all_eq_false] at hblank ⊢
  rcases hblank with ⟨x, hx, hnx⟩
  rcases List.getElem_of_mem hx with ⟨i, hi, rfl⟩
  have hin : i < f.nrows := by
    rw [← hwf c hc]
    exact hi
  rcases exists_first_equal f i with ⟨m, hmi, heq, hfirst⟩
  rcases List.getElem_of_mem hc with ⟨idx, hidx, hcidx⟩
  have h1 : (rowCells f m).getD idx Cell.na = c.cells.getD m Cell.na := by
    rw [rowCells, getD_map_lt _ _ _ _ hidx, hcidx]
  have h2 : (rowCells f i).getD idx Cell.na = c.cells.getD i Cell.na := by
    rw [rowCells, getD_map_lt _ _ _ _ hidx, hcidx]
  have hcomp : c.cells.getD m Cell.na = c.cells.getD i Cell.na := by
    rw [← h1, ← h2, heq]
  have hmlt : m < f.nrows := lt_of_le_of_lt hmi hin
  have hmem : m ∈ (List.range f.nrows).filter (isFirstOccurrence f) :=
    List.mem_filter.mpr ⟨List.mem_range.mpr hmlt, hfirst⟩
  refine ⟨c.cells.getD m Cell.na, ?_, ?_⟩
  · exact List.mem_map.mpr ⟨m, hmem, rfl⟩
  · rw [hcomp]
    have hgd : c.cells.getD i Cell.na = c.cells[i] := by
      simp [List.getD_eq_getElem?_getD, List.getElem?_eq_getElem hi]
    rw [hgd]
    exact hnx

/-- C8 amended: the blank-row prune, blank-column prune and duplicate
removal are jointly idempotent — re-applying any of the three to a table
that has just passed through all three removes no further rows or columns.
(The full-pipeline re-run claim fails because later stages — the
Arrow-compatibility finalizer, type inference, outlier removal — can
reintroduce blank rows, blank columns or duplicates, as the counterexample
shows.) -/
theorem c8_prune_dedup_idempotent (f : Frame) :
    dropBlankRowsF (dedupF (dropBlankColsF (dropBlankRowsF f))) =
      dedupF (dropBlankColsF (dropBlankRowsF f)) ∧
    dropBlankColsF (dedupF (dropBlankColsF (dropBlankRowsF f))) =
      dedupF (dropBlankColsF (dropBlankRowsF f)) ∧
    dedupF (dedupF (dropBlankColsF (dropBlankRowsF f))) =
      dedupF (dropBlankColsF (dropBlankRowsF f)) := by
  set f1 := dropBlankRowsF f with hf1
  set f2 := dropBlankColsF f1 with hf2
  set g := dedupF f2 with hg
  have hWF2 : f2.WF := by
    rw [hf2]
    apply dropBlankColsF_WF
    rw [hf1]
    exact filterRows_WF f _
  have hWFg : g.WF := by
    rw [hg]
    unfold dedupF
    exact filterRows_WF f2 _
  have hf2rows : ∀ i < f2.nrows, f2.rowBlank i = false := by
    intro i hi
    rw [hf2]
    apply dropBlankColsF_rowBlank
    rw [hf1]
    apply dropBlankRowsF_noBlank
    exact hi
  have hgrows : ∀ i < g.nrows, g.rowBlank i = false := by
    intro i hi
    rw [hg]
    refine dedupF_rowBlank f2 i ?_ hf2rows
    rw [← hg]
    exact hi
  have hgcolsblank : ∀ c ∈ g.cols, c.blank = false := by
    intro c hc
    refine dedupF_colBlank f2 hWF2 c ?_ ?_
    · rw [← hg]
      exact hc
    · intro c0 hc0
      rw [hf2] at hc0
      exact dropBlankColsF_noBlankCols f1 c0 hc0
  have hgnodup : ∀ i < g.nrows, isFirstOccurrence g i = true := by
    intro i hi
    rw [isFirstOccurrence_iff]
    intro j hj he
    refine dedupF_noDups f2 j i ?_ ?_ hj ?_
    · rw [← hg]
      exact lt_trans hj hi
    · rw [← hg]
      exact hi
    · rw [hg] at he
      exact he
  refine ⟨?_, ?_, ?_⟩
  · apply filterRows_id g _ hWFg
    intro i hi
    simp [Frame.rowBlank] at hgrows ⊢
    simp [hgrows i hi]
  · show { g with cols := g.cols.filter (fun c => !c.blank) } = g
    have hfil : g.cols.filter (fun c => !c.blank) = g.cols :=
      List.filter_eq_self.mpr (fun c hc => by simp [hgcolsblank c hc])
    rw [hfil]
  · exact filterRows_id g _ hWFg hgnodup

end ExcelCleaner
